import Mathlib

/-!
Verification of `ollama/_utils.py`: the callable-to-schema compiler.

The development shallowly embeds the module's data and operations:

* Python strings are modelled as `List Char`; the string operations the
  module uses (`split`, `split` with maxsplit 1, `strip`, `lower`,
  `startswith`, `join`) are re-implemented structurally so that every
  definition evaluates inside the kernel.
* A type annotation value is modelled by `PyBase` (a runtime class, a
  typing alias, a string forward reference, the value `None`, or a
  parameterized generic) and `PyObj` (a `PyBase`, or a union of `PyBase`
  members).  Python's typing constructors flatten nested unions, so a
  union member is never itself a union, and the module never inspects the
  arguments of a parameterized generic; the two-level shape reflects both
  facts.
* The module raises `ValueError` with four distinct message shapes plus a
  reachable `IndexError`; `PyErr` gives each one a constructor carrying
  the identifying context that the Python message interpolates.
* `Tool.model_validate` (pydantic) is an external black box; the embedding
  passes it as an explicit function argument and exposes the assembled
  dictionary (`ToolDict`) that is handed to it.  The constant entries
  `'type': 'function'` and `parameters['type']: 'object'` of the
  assembled dictionary are literals in the source and are left implicit.
-/

set_option autoImplicit false

namespace OllamaUtils

/-- Chars of a Lean string literal, used to write Python string values. -/
def pystr (s : String) : List Char := s.data

/-- Python `str.lower` restricted to ASCII, which covers every string the
module ever lowercases. -/
def pyLower (s : List Char) : List Char := s.map Char.toLower

/-- The characters Python's default `str.strip` removes. -/
def isPySpace (c : Char) : Bool :=
  c = ' ' || c = '\t' || c = '\n' || c = '\r' || c = '\x0b' || c = '\x0c'

/-- Python `str.strip()`: drop whitespace from both ends. -/
def pyStrip (s : List Char) : List Char :=
  ((s.dropWhile isPySpace).reverse.dropWhile isPySpace).reverse

/-- Worker for `pySplit`.  `skip` counts separator characters still to be
consumed after a separator match; while it is positive, characters are
dropped without being tested. -/
def pySplitAux (sep : List Char) : Nat → List Char → List (List Char)
  | _, [] => [[]]
  | Nat.succ n, _ :: rest => pySplitAux sep n rest
  | 0, c :: rest =>
    if List.isPrefixOf sep (c :: rest) then
      [] :: pySplitAux sep (sep.length - 1) rest
    else
      match pySplitAux sep 0 rest with
      | [] => [[c]]
      | g :: gs => (c :: g) :: gs

/-- Python `s.split(sep)` for a non-empty separator (the module only ever
splits on the non-empty separators `'\n'`, `'Args:'`, `'Returns:'`, `':'`).
-/
def pySplit (sep s : List Char) : List (List Char) :=
  if sep = [] then [s] else pySplitAux sep 0 s

/-- Python `s.split(sep, 1)`: split at the first occurrence only. -/
def pySplit1 (sep s : List Char) : List (List Char) :=
  match pySplit sep s with
  | [] => []
  | [x] => [x]
  | x :: rest => [x, List.intercalate sep rest]

/-- Runtime classes (`isinstance(x, type)` holds) that the module can
meet: the builtin scalar and container classes, the `collections.abc`
classes it imports, `NoneType`, and arbitrary user classes.  A user class
records its name and whether it is a subclass of the sequence-like tuple
`(list, Sequence, tuple, set, Set)` respectively the mapping-like tuple
`(dict, Mapping)` used at lines 69 and 71 of the source. -/
inductive PyType where
  | int | str | float | bool | noneType
  | list | tuple | set | dict
  | abcSequence | abcSet | abcMapping
  | userClass (name : List Char) (seqLike mapLike : Bool)
deriving DecidableEq, Repr

/-- The typing-module aliases appearing as keys of `TYPE_MAP`
(`typing.List`, `typing.Set`, `typing.Dict`, `typing.Any`).  None of them
is a runtime class or a string. -/
inductive TAlias where
  | tList | tSet | tDict | tAny
deriving DecidableEq, Repr

/-- A non-union annotation value: a runtime class, a typing alias, a
string forward reference, the value `None`, or a parameterized generic
(`get_origin` yields the origin).  The module never recurses into the
arguments of a generic, and Python's typing flattens nested unions, so
generic arguments are modelled at this level as well. -/
inductive PyBase where
  | typeO (t : PyType)
  | alias (a : TAlias)
  | strL (s : List Char)
  | noneV
  | generic (origin : PyBase) (args : List PyBase)

/-- An annotation as `_get_json_type` receives it: either a non-union
value or a union (`X | Y`, `Union[X, Y]`, `Optional[X]`); `get_origin` on
a union yields the union marker and `get_args` yields the members, which
are never themselves unions. -/
inductive PyObj where
  | base (b : PyBase)
  | union (ms : List PyBase)

/-- The `__name__` attribute of a runtime class. -/
def typeName : PyType → List Char
  | .int => pystr "int"
  | .str => pystr "str"
  | .float => pystr "float"
  | .bool => pystr "bool"
  | .noneType => pystr "NoneType"
  | .list => pystr "list"
  | .tuple => pystr "tuple"
  | .set => pystr "set"
  | .dict => pystr "dict"
  | .abcSequence => pystr "Sequence"
  | .abcSet => pystr "Set"
  | .abcMapping => pystr "Mapping"
  | .userClass n _ _ => n

/-- `hasattr(x, '__name__')` and the attribute's value: classes have their
name, a parameterized generic proxies the attribute to its origin, and
strings, `None` and the typing aliases reached here have none. -/
def dunderName : PyBase → Option (List Char)
  | .typeO t => some (typeName t)
  | .generic o _ => dunderName o
  | _ => none

/-- Lookup of a lowered string key among the string keys of `TYPE_MAP`
(source lines 9-44).  Note the only absence-like string key is `'None'`
with a capital N. -/
def stringKey (s : List Char) : Option (List Char) :=
  if s = pystr "int" then some (pystr "integer")
  else if s = pystr "str" then some (pystr "string")
  else if s = pystr "float" then some (pystr "number")
  else if s = pystr "bool" then some (pystr "boolean")
  else if s = pystr "None" then some (pystr "null")
  else if s = pystr "list" then some (pystr "array")
  else if s = pystr "List" then some (pystr "array")
  else if s = pystr "Sequence" then some (pystr "array")
  else if s = pystr "tuple" then some (pystr "array")
  else if s = pystr "set" then some (pystr "array")
  else if s = pystr "Set" then some (pystr "array")
  else if s = pystr "dict" then some (pystr "object")
  else if s = pystr "Dict" then some (pystr "object")
  else if s = pystr "Mapping" then some (pystr "object")
  else if s = pystr "Any" then some (pystr "string")
  else none

/-- `TYPE_MAP` (source lines 9-44) as a partial map.  Dictionary keys are
compared by Python equality: no string equals a class or an alias, so the
three key families are disjoint; user classes, `None` and parameterized
generics are not keys. -/
def TYPE_MAP : PyBase → Option (List Char)
  | .typeO .int => some (pystr "integer")
  | .typeO .str => some (pystr "string")
  | .typeO .float => some (pystr "number")
  | .typeO .bool => some (pystr "boolean")
  | .typeO .noneType => some (pystr "null")
  | .typeO .list => some (pystr "array")
  | .typeO .tuple => some (pystr "array")
  | .typeO .set => some (pystr "array")
  | .typeO .dict => some (pystr "object")
  | .typeO .abcSequence => some (pystr "array")
  | .typeO .abcSet => some (pystr "array")
  | .typeO .abcMapping => some (pystr "object")
  | .typeO (.userClass _ _ _) => none
  | .alias .tList => some (pystr "array")
  | .alias .tSet => some (pystr "array")
  | .alias .tDict => some (pystr "object")
  | .alias .tAny => some (pystr "string")
  | .strL s => stringKey s
  | .noneV => none
  | .generic _ _ => none

/-- `issubclass(t, (list, Sequence, tuple, set, Set))` for the modelled
classes (`str` is a registered `Sequence` subclass in Python). -/
def subclassSeqLike : PyType → Bool
  | .list | .tuple | .set | .abcSequence | .abcSet | .str => true
  | .userClass _ sq _ => sq
  | _ => false

/-- `issubclass(t, (dict, Mapping))` for the modelled classes. -/
def subclassMapLike : PyType → Bool
  | .dict | .abcMapping => true
  | .userClass _ _ mp => mp
  | _ => false

/-- The value shapes of `_get_json_type`: a single JSON type name or the
list produced for a multi-member union (source line 58). -/
inductive JsonType where
  | s (v : List Char)
  | arr (vs : List (List Char))
deriving DecidableEq, Repr

/-- The module's failure modes.  In the source the first four are
`ValueError` with four distinct message shapes (lines 102, 117, 139, 88),
each interpolating the context carried here; `indexError` is the
`IndexError` from `line.split(':', 1)[1]` at line 135 when a matched line
has no colon; `validationError` stands for pydantic's rejection inside
the external `Tool.model_validate`. -/
inductive PyErr where
  | missingDoc (fname : List Char)
  | missingSection (fname : List Char)
  | missingParamDesc (pname : List Char)
  | unmappableType (msg : List Char)
  | indexError
  | validationError
deriving DecidableEq, Repr

/-- Decidable equality of fallible results, used only to evaluate the
embedding on concrete inputs. -/
instance {ε α : Type} [DecidableEq ε] [DecidableEq α] : DecidableEq (Except ε α)
  | .error e, .error e' =>
    if h : e = e' then .isTrue (congrArg Except.error h)
    else .isFalse (fun hc => h (Except.error.inj hc))
  | .error _, .ok _ => .isFalse (fun hc => Except.noConfusion hc)
  | .ok _, .error _ => .isFalse (fun hc => Except.noConfusion hc)
  | .ok a, .ok b =>
    if h : a = b then .isTrue (congrArg Except.ok h)
    else .isFalse (fun hc => h (Except.ok.inj hc))

/-- Rendering of an annotation value used inside the `ValueError` message
of `_get_json_type` (an f-string on the offending annotation; generic
arguments are abbreviated, the claims never inspect them). -/
def pyReprB : PyBase → List Char
  | .typeO t => pystr "<class '" ++ typeName t ++ pystr "'>"
  | .alias .tList => pystr "typing.List"
  | .alias .tSet => pystr "typing.Set"
  | .alias .tDict => pystr "typing.Dict"
  | .alias .tAny => pystr "typing.Any"
  | .strL s => s
  | .noneV => pystr "None"
  | .generic o _ => pyReprB o ++ pystr "[...]"

/-- Source lines 74-88 of `_get_json_type`: normalize the annotation to a
lookup key (classes kept, strings lowered), fall back to the lowered
`__name__` when the key misses the map, then look the key up, raising
`ValueError` on failure. -/
def plain_lookup (y : PyBase) : Except PyErr (List Char) :=
  let key0 : PyBase :=
    match y with
    | .strL s => .strL (pyLower s)
    | other => other
  let key1 : PyBase :=
    match TYPE_MAP key0 with
    | some _ => key0
    | none =>
      match dunderName y with
      | some n => .strL (pyLower n)
      | none => key0
  match TYPE_MAP key1 with
  | some t => .ok t
  | none =>
    .error (.unmappableType
      (pystr "Could not map Python type " ++ pyReprB y ++ pystr " to a valid JSON type"))

/-- `_get_json_type` on a non-union annotation (source lines 61-88): a
parameterized generic resolves by its origin — map lookup first, then the
subclass checks — and otherwise falls through with the whole generic to
the plain lookup; every other value goes to the plain lookup directly. -/
def resolveBase (y : PyBase) : Except PyErr (List Char) :=
  match y with
  | .generic origin _ =>
    match TYPE_MAP origin with
    | some b => .ok b
    | none =>
      match origin with
      | .typeO t =>
        if subclassSeqLike t then .ok (pystr "array")
        else if subclassMapLike t then .ok (pystr "object")
        else plain_lookup y
      | _ => plain_lookup y
  | _ => plain_lookup y

/-- `arg in (None, type(None))`: the absence markers filtered out of a
union's members (source lines 53 and 95). -/
def isAbsenceB : PyBase → Bool
  | .noneV => true
  | .typeO .noneType => true
  | _ => false

/-- The list comprehension at line 58: resolve each member left to right,
the first failure aborting. -/
def resolveAll : List PyBase → Except PyErr (List (List Char))
  | [] => .ok []
  | a :: rest =>
    match resolveBase a with
    | .error e => .error e
    | .ok r =>
      match resolveAll rest with
      | .error e => .error e
      | .ok rs => .ok (r :: rs)

/-- `_get_json_type` (source lines 47-88).  For a union, absence markers
are filtered out of the members: none left gives `'null'`, exactly one
left recurses on it, and two or more give the list of their resolutions.
A union member is never itself a union, so the recursive call at line 56
is `resolveBase`. -/
def get_json_type : PyObj → Except PyErr JsonType
  | .base b => (resolveBase b).map .s
  | .union ms =>
    match ms.filter (fun a => !isAbsenceB a) with
    | [] => .ok (.s (pystr "null"))
    | [a] => (resolveBase a).map .s
    | l => (resolveAll l).map .arr

/-- `_is_optional_type` (source lines 91-96): true exactly for a union
with an absence marker among its members. -/
def is_optional_type : PyObj → Bool
  | .union ms => ms.any isAbsenceB
  | _ => false

/-- One entry of `parameters['properties']` (source lines 141-144): the
resolved JSON type and the description found in the Args section. -/
structure PropEntry where
  type : JsonType
  description : List Char
deriving DecidableEq, Repr

/-- The dictionary `convert_function_to_tool` assembles (source lines
123 and 150-161) and hands to `Tool.model_validate`.  The constant
entries `'type': 'function'` and `parameters['type']: 'object'` are
literals in the source and left implicit; `properties` is an
insertion-ordered dictionary, modelled as an association list. -/
structure ToolDict where
  name : List Char
  description : List Char
  properties : List ((List Char) × PropEntry)
  required : List (List Char)
  return_type : Option JsonType
deriving DecidableEq, Repr

/-- The three attributes of a callable the module reads: `__name__`,
`__doc__` (absent or a string), and `__annotations__` — an ordered
mapping from parameter name (plus the `'return'` slot) to annotation.  A
declared parameter without an annotation simply has no entry. -/
structure PyFunc where
  name : List Char
  docstring : Option (List Char)
  anns : List ((List Char) × PyObj)

/-- Source lines 105-111: the summary lines — trimmed non-empty lines
before the first line that starts with `'Args:'`. -/
def collectDescLines : List (List Char) → List (List Char)
  | [] => []
  | l :: rest =>
    let t := pyStrip l
    if List.isPrefixOf (pystr "Args:") t then []
    else if t = [] then collectDescLines rest
    else t :: collectDescLines rest

/-- Source line 113: space-join the summary lines and strip. -/
def description_of (doc : List Char) : List Char :=
  pyStrip (List.intercalate (pystr " ") (collectDescLines (pySplit (pystr "\n") doc)))

/-- Source lines 119-121: the text after the first `'Args:'` occurrence,
cut before a `'Returns:'` occurrence when one exists (`split[0]` equals
the whole text otherwise, so the cut is unconditional). -/
def args_region (doc : List Char) : List Char :=
  (pySplit (pystr "Returns:") (((pySplit (pystr "Args:") doc).drop 1).headD [])).headD []

/-- The lines of the Args region, as the loop at line 131 sees them. -/
def arg_lines_of (doc : List Char) : List (List Char) :=
  pySplit (pystr "\n") (args_region doc)

/-- Source lines 130-136: scan the region's lines for the first whose
trimmed text starts with `name + ':'`, `name + ' '` or `name + '('`; on a
match take the trimmed text after the first colon.  A matched line with
no colon makes `line.split(':', 1)[1]` an out-of-range access, a genuine
`IndexError`. -/
def searchParamDesc (pname : List Char) : List (List Char) → Except PyErr (Option (List Char))
  | [] => .ok none
  | l :: rest =>
    let t := pyStrip l
    if List.isPrefixOf (pname ++ pystr ":") t
        || List.isPrefixOf (pname ++ pystr " ") t
        || List.isPrefixOf (pname ++ pystr "(") t then
      match pySplit1 (pystr ":") t with
      | _ :: d :: _ => .ok (some (pyStrip d))
      | _ => .error .indexError
    else searchParamDesc pname rest

/-- Python dictionary assignment `d[k] = v`: overwrite in place when the
key exists, append otherwise. -/
def dictInsert (d : List ((List Char) × PropEntry)) (k : List Char) (v : PropEntry) :
    List ((List Char) × PropEntry) :=
  if d.any (fun p => p.1 = k) then d.map (fun p => if p.1 = k then (k, v) else p)
  else d ++ [(k, v)]

/-- The parameter loop (source lines 126-148): walk the annotation
mapping in order, skip the `'return'` slot, find the parameter's
description (absent or empty raises `ValueError` naming the parameter),
resolve its type, and extend `properties` and — when the annotation is
not optional — `required`. -/
def buildParams (argLines : List (List Char)) :
    List ((List Char) × PropEntry) → List (List Char) → List ((List Char) × PyObj) →
    Except PyErr (List ((List Char) × PropEntry) × List (List Char))
  | props, req, [] => .ok (props, req)
  | props, req, (p, ann) :: rest =>
    if p = pystr "return" then buildParams argLines props req rest
    else
      match searchParamDesc p argLines with
      | .error e => .error e
      | .ok none => .error (.missingParamDesc p)
      | .ok (some d) =>
        if d = [] then .error (.missingParamDesc p)
        else
          match get_json_type ann with
          | .error e => .error e
          | .ok jt =>
            buildParams argLines (dictInsert props p ⟨jt, d⟩)
              (if is_optional_type ann then req else req ++ [p]) rest

/-- `annotations['return'] is None`: the annotation value is the Python
value `None` itself (a `-> None` annotation), not `NoneType`. -/
def isNoneValue : PyObj → Bool
  | .base .noneV => true
  | _ => false

/-- Source lines 156 and 160-161: `return_type` stays `None` unless the
annotation mapping has a `'return'` entry whose value `is not None`, in
which case that value is resolved. -/
def return_type_of (anns : List ((List Char) × PyObj)) : Except PyErr (Option JsonType) :=
  match anns.lookup (pystr "return") with
  | none => .ok none
  | some ann =>
    if isNoneValue ann then .ok none
    else
      match get_json_type ann with
      | .error e => .error e
      | .ok jt => .ok (some jt)

/-- The `__doc__` text as the truthiness test at line 101 sees it: an
absent docstring and an empty one behave identically. -/
def doc_of (f : PyFunc) : List Char := f.docstring.getD []

/-- `convert_function_to_tool` up to the dictionary handed to
`Tool.model_validate` (source lines 99-161): missing docstring, then the
`'Args:'` presence check, then the parameter loop, then the return
annotation.  The source computes the summary (`description_of`) between
the two docstring checks; it is a pure value used only in the success
dictionary, so it appears there. -/
def assemble_tool (f : PyFunc) : Except PyErr ToolDict :=
  if doc_of f = [] then .error (.missingDoc f.name)
  else if (pySplit (pystr "Args:") (doc_of f)).length < 2 then .error (.missingSection f.name)
  else
    match buildParams (arg_lines_of (doc_of f)) [] [] f.anns with
    | .error e => .error e
    | .ok (props, req) =>
      match return_type_of f.anns with
      | .error e => .error e
      | .ok rt => .ok ⟨f.name, description_of (doc_of f), props, req, rt⟩

/-- `convert_function_to_tool` (source lines 99-163): assemble the
dictionary and hand it to the external validator `Tool.model_validate`,
passed explicitly since pydantic is outside the module. -/
def convert_function_to_tool {T : Type} (validate : ToolDict → Except PyErr T)
    (f : PyFunc) : Except PyErr T :=
  match assemble_tool f with
  | .error e => .error e
  | .ok td => validate td

/-- The per-item dispatch of `process_tools` (source lines 172-175):
a callable goes through `convert_function_to_tool`, anything else goes
directly to `Tool.model_validate`. -/
def route {T R : Type} (validate : ToolDict → Except PyErr T)
    (vraw : R → Except PyErr T) : PyFunc ⊕ R → Except PyErr T
  | .inl f => convert_function_to_tool validate f
  | .inr r => vraw r

/-- The loop of `process_tools`: append each processed item in order, a
failure aborting the whole batch. -/
def process_list {T R : Type} (validate : ToolDict → Except PyErr T)
    (vraw : R → Except PyErr T) : List (PyFunc ⊕ R) → Except PyErr (List T)
  | [] => .ok []
  | t :: rest =>
    match route validate vraw t with
    | .error e => .error e
    | .ok x =>
      match process_list validate vraw rest with
      | .error e => .error e
      | .ok xs => .ok (x :: xs)

/-- `process_tools` (source lines 166-177): `None` or an empty sequence
yields the empty list, otherwise the items are processed in order. -/
def process_tools {T R : Type} (validate : ToolDict → Except PyErr T)
    (vraw : R → Except PyErr T) : Option (List (PyFunc ⊕ R)) → Except PyErr (List T)
  | none => .ok []
  | some ts => if ts.isEmpty then .ok [] else process_list validate vraw ts

/-! ## Concrete callables used as witnesses and counterexamples -/

/-- A callable with no documentation text. -/
def funcNoDoc : PyFunc := ⟨pystr "f1", none, []⟩

/-- A callable whose documentation lacks the Args section marker. -/
def funcNoArgsSection : PyFunc := ⟨pystr "f2", some (pystr "Just a doc."), []⟩

/-- A callable whose second annotated parameter has no description line. -/
def funcParamUndescribed : PyFunc :=
  ⟨pystr "f3", some (pystr "Sum.\n\nArgs:\n  a: first\n"),
   [(pystr "a", .base (.typeO .int)), (pystr "b", .base (.typeO .str))]⟩

/-- A callable whose Args line for `a` matches the `'a '` variant but has
no colon, so `line.split(':', 1)[1]` is out of range. -/
def funcColonless : PyFunc :=
  ⟨pystr "f", some (pystr "Sum.\n\nArgs:\n  a desc"), [(pystr "a", .base (.typeO .int))]⟩

/-- The spec's round-trip example: `a` required integer-like, `b`
optional text-like, both described, integer-like return. -/
def funcRoundTrip : PyFunc :=
  ⟨pystr "add",
   some (pystr "Add.\n\nArgs:\n  a: first\n  b: second\n\nReturns:\n  int: sum"),
   [(pystr "a", .base (.typeO .int)),
    (pystr "b", .union [.typeO .str, .typeO .noneType]),
    (pystr "return", .base (.typeO .int))]⟩

/-- The dictionary `assemble_tool` builds for `funcRoundTrip`. -/
def toolRoundTrip : ToolDict :=
  ⟨pystr "add", pystr "Add.",
   [(pystr "a", ⟨.s (pystr "integer"), pystr "first"⟩),
    (pystr "b", ⟨.s (pystr "string"), pystr "second"⟩)],
   [pystr "a"], some (.s (pystr "integer"))⟩

/-- A callable whose return annotation is the class `NoneType` (written
`-> type(None)`), which is an absence marker but not the value `None`. -/
def funcNoneTypeReturn : PyFunc :=
  ⟨pystr "g", some (pystr "Does.\n\nArgs:\n"),
   [(pystr "return", .base (.typeO .noneType))]⟩

/-- A callable declaring a described but unannotated parameter `c`. -/
def funcUnannotated : PyFunc :=
  ⟨pystr "h", some (pystr "Mix.\n\nArgs:\n  a: first\n  c: ghost\n"),
   [(pystr "a", .base (.typeO .int))]⟩

/-! ## Claims -/

/-- C1.  For the integer-like, text-like, float-like and boolean-like
families, `_get_json_type` maps the runtime type and its string name —
case-insensitively — to the same fixed kind.  For the absence-like family
only the runtime type `type(None)` resolves to `'null'`: the string forms
`'None'`, `'none'`, `'NONE'` are lowercased to `'none'`, which misses the
map's `'None'` key, so they raise `ValueError` instead — the claim fails
on the code, whose own `'None': 'null'` entry in `TYPE_MAP` is
unreachable. -/
theorem C1_primitive_resolution :
    get_json_type (.base (.typeO .int)) = .ok (.s (pystr "integer"))
    ∧ get_json_type (.base (.strL (pystr "int"))) = .ok (.s (pystr "integer"))
    ∧ get_json_type (.base (.strL (pystr "INT"))) = .ok (.s (pystr "integer"))
    ∧ get_json_type (.base (.typeO .str)) = .ok (.s (pystr "string"))
    ∧ get_json_type (.base (.strL (pystr "str"))) = .ok (.s (pystr "string"))
    ∧ get_json_type (.base (.strL (pystr "Str"))) = .ok (.s (pystr "string"))
    ∧ get_json_type (.base (.typeO .float)) = .ok (.s (pystr "number"))
    ∧ get_json_type (.base (.strL (pystr "float"))) = .ok (.s (pystr "number"))
    ∧ get_json_type (.base (.strL (pystr "FLOAT"))) = .ok (.s (pystr "number"))
    ∧ get_json_type (.base (.typeO .bool)) = .ok (.s (pystr "boolean"))
    ∧ get_json_type (.base (.strL (pystr "bool"))) = .ok (.s (pystr "boolean"))
    ∧ get_json_type (.base (.strL (pystr "Bool"))) = .ok (.s (pystr "boolean"))
    ∧ get_json_type (.base (.typeO .noneType)) = .ok (.s (pystr "null"))
    ∧ get_json_type (.base (.strL (pystr "None")))
        = .error (.unmappableType (pystr "Could not map Python type None to a valid JSON type"))
    ∧ get_json_type (.base (.strL (pystr "none")))
        = .error (.unmappableType (pystr "Could not map Python type none to a valid JSON type"))
    ∧ get_json_type (.base (.strL (pystr "NONE")))
        = .error (.unmappableType (pystr "Could not map Python type NONE to a valid JSON type")) := by
  decide

/-- C3.  The closed error taxonomy is not exhaustive: on a callable whose
Args line for `a` matches the `'a '` prefix variant but contains no
colon, `line.split(':', 1)[1]` (source line 135) is an out-of-range
access, so `convert_function_to_tool` fails with `IndexError` rather than
any of the five taxonomy errors. -/
theorem C3_index_error_reachable :
    convert_function_to_tool (Except.ok : ToolDict → Except PyErr ToolDict) funcColonless
        = .error .indexError
    ∧ assemble_tool funcColonless = .error .indexError := by
  decide

/-- C4.  A union with exactly one non-absence member and at least one
absence marker is optional and resolves to the member's own kind; a union
of absence markers only resolves to `'null'`. -/
theorem C4_optional_union :
    (∀ (ms : List PyBase) (x : PyBase),
        ms.filter (fun a => !isAbsenceB a) = [x] →
        ms.any isAbsenceB = true →
        is_optional_type (.union ms) = true
          ∧ get_json_type (.union ms) = get_json_type (.base x))
    ∧ (∀ ms : List PyBase, ms.all isAbsenceB = true →
        get_json_type (.union ms) = .ok (.s (pystr "null"))) := by
  constructor
  · intro ms x h1 h2
    refine ⟨by simp [is_optional_type, h2], ?_⟩
    simp only [get_json_type, h1]
  · intro ms h
    have hnil : ms.filter (fun a => !isAbsenceB a) = [] := by
      rw [List.filter_eq_nil_iff]
      intro a ha
      simp [List.all_eq_true.mp h a ha]
    simp only [get_json_type, hnil]

/-- C4 witness: `int | None` is optional and resolves to `'integer'`;
a union of absence markers alone resolves to `'null'`. -/
theorem C4_optional_union_witness :
    (is_optional_type (.union [.typeO .int, .noneV]) = true
      ∧ get_json_type (.union [.typeO .int, .noneV])
          = get_json_type (.base (.typeO .int)))
    ∧ get_json_type (.union [.noneV, .typeO .noneType]) = .ok (.s (pystr "null")) :=
  ⟨C4_optional_union.1 [.typeO .int, .noneV] (.typeO .int) rfl rfl,
   C4_optional_union.2 [.noneV, .typeO .noneType] rfl⟩

/-- Element-wise reading of the comprehension at source line 58: a
successful `resolveAll` returns exactly one resolution per member, in
order. -/
theorem resolveAll_spec (l : List PyBase) (ks : List (List Char))
    (h : resolveAll l = .ok ks) :
    ks.length = l.length
    ∧ ∀ i (hi : i < l.length) (hk : i < ks.length),
        resolveBase (l.get ⟨i, hi⟩) = .ok (ks.get ⟨i, hk⟩) := by
  induction l generalizing ks with
  | nil =>
    simp only [resolveAll] at h
    cases h
    exact ⟨rfl, fun i hi => by cases hi⟩
  | cons a rest ih =>
    simp only [resolveAll] at h
    cases hr : resolveBase a with
    | error e => rw [hr] at h; cases h
    | ok r =>
      rw [hr] at h
      cases hrest : resolveAll rest with
      | error e => rw [hrest] at h; cases h
      | ok rs =>
        rw [hrest] at h
        cases h
        obtain ⟨hlen, helt⟩ := ih rs hrest
        refine ⟨by simp [hlen], ?_⟩
        intro i hi hk
        match i with
        | 0 => exact hr
        | Nat.succ j =>
          have hj : j < rest.length := by
            have h' := hi; simp only [List.length_cons] at h'; omega
          have hjk : j < rs.length := by
            have h' := hk; simp only [List.length_cons] at h'; omega
          exact helt j hj hjk

/-- C5.  A union leaving two or more members after absence-stripping
resolves to the ordered list of each remaining member's own kind, and a
union with no absence marker is not optional. -/
theorem C5_multi_union :
    (∀ (ms : List PyBase) (a b : PyBase) (rest : List PyBase) (ks : List (List Char)),
        ms.filter (fun x => !isAbsenceB x) = a :: b :: rest →
        resolveAll (a :: b :: rest) = .ok ks →
        get_json_type (.union ms) = .ok (.arr ks)
          ∧ ks.length = (a :: b :: rest).length
          ∧ ∀ i (hi : i < (a :: b :: rest).length) (hk : i < ks.length),
              get_json_type (.base ((a :: b :: rest).get ⟨i, hi⟩))
                = .ok (.s (ks.get ⟨i, hk⟩)))
    ∧ (∀ ms : List PyBase, ms.any isAbsenceB = false →
        is_optional_type (.union ms) = false) := by
  constructor
  · intro ms a b rest ks h1 h2
    obtain ⟨hlen, helt⟩ := resolveAll_spec (a :: b :: rest) ks h2
    refine ⟨?_, hlen, ?_⟩
    · simp only [get_json_type, h1, h2, Except.map]
    · intro i hi hk
      simp only [get_json_type, helt i hi hk, Except.map]
  · intro ms h
    simp [is_optional_type, h]

/-- C5 witness: `int | str` resolves to the ordered list
`['integer', 'string']` and is not optional. -/
theorem C5_multi_union_witness :
    get_json_type (.union [.typeO .int, .typeO .str])
        = .ok (.arr [pystr "integer", pystr "string"])
    ∧ is_optional_type (.union [.typeO .int, .typeO .str]) = false :=
  ⟨(C5_multi_union.1 [.typeO .int, .typeO .str] (.typeO .int) (.typeO .str) []
      [pystr "integer", pystr "string"] rfl rfl).1,
   C5_multi_union.2 [.typeO .int, .typeO .str] rfl⟩

/-- C6.  A parameterized generic resolves by its base constructor alone:
sequence-like, tuple-like and set-like origins give `'array'`, mapping
origins give `'object'`, whatever the inner annotations are (they are
never inspected).  User container classes resolve through the
`issubclass` checks at source lines 68-72. -/
theorem C6_container_shallow (args : List PyBase) :
    (∀ t : PyType, t ∈ [PyType.list, .tuple, .set, .abcSequence, .abcSet] →
        get_json_type (.base (.generic (.typeO t) args)) = .ok (.s (pystr "array")))
    ∧ (∀ t : PyType, t ∈ [PyType.dict, .abcMapping] →
        get_json_type (.base (.generic (.typeO t) args)) = .ok (.s (pystr "object")))
    ∧ (∀ (n : List Char) (mp : Bool),
        get_json_type (.base (.generic (.typeO (.userClass n true mp)) args))
          = .ok (.s (pystr "array")))
    ∧ (∀ n : List Char,
        get_json_type (.base (.generic (.typeO (.userClass n false true)) args))
          = .ok (.s (pystr "object"))) := by
  refine ⟨?_, ?_, ?_, ?_⟩
  · intro t ht
    fin_cases ht <;> rfl
  · intro t ht
    fin_cases ht <;> rfl
  · intro n mp; rfl
  · intro n; rfl

/-- C6 witness: `tuple[int]` resolves to `'array'` and `dict[str, int]`
to `'object'`. -/
theorem C6_container_shallow_witness :
    get_json_type (.base (.generic (.typeO .tuple) [.typeO .int])) = .ok (.s (pystr "array"))
    ∧ get_json_type (.base (.generic (.typeO .dict) [.typeO .str, .typeO .int]))
        = .ok (.s (pystr "object")) :=
  ⟨(C6_container_shallow [.typeO .int]).1 .tuple (by simp),
   (C6_container_shallow [.typeO .str, .typeO .int]).2.1 .dict (by simp)⟩

/-- A parameter entry the loop at source lines 126-148 passes without
raising: the return slot, or a parameter whose description search finds a
non-empty text and whose annotation resolves. -/
def paramPasses (argLines : List (List Char)) (x : (List Char) × PyObj) : Bool :=
  x.1 == pystr "return"
  || (match searchParamDesc x.1 argLines, get_json_type x.2 with
      | .ok (some d), .ok _ => d != []
      | _, _ => false)

/-- The parameter loop stops at the first parameter whose description
search finds nothing, whatever comes after it. -/
theorem buildParams_first_missing (argLines : List (List Char)) :
    ∀ (pre : List ((List Char) × PyObj)) (p : List Char) (ann : PyObj)
      (post : List ((List Char) × PyObj)) props req,
      (∀ x ∈ pre, paramPasses argLines x = true) →
      p ≠ pystr "return" →
      searchParamDesc p argLines = .ok none →
      buildParams argLines props req (pre ++ (p, ann) :: post)
        = .error (.missingParamDesc p) := by
  intro pre
  induction pre with
  | nil =>
    intro p ann post props req _ hp hs
    simp only [List.nil_append, buildParams, if_neg hp, hs]
  | cons x xs ih =>
    intro p ann post props req hpre hp hs
    have hx := hpre x (List.mem_cons_self x xs)
    have htail : ∀ y ∈ xs, paramPasses argLines y = true :=
      fun y hy => hpre y (List.mem_cons_of_mem x hy)
    obtain ⟨x1, xann⟩ := x
    simp only [List.cons_append]
    by_cases hret : x1 = pystr "return"
    · simp only [buildParams, if_pos hret]
      exact ih p ann post props req htail hp hs
    · rw [paramPasses, Bool.or_eq_true] at hx
      rcases hx with hx | hx
      · exact absurd (by simpa using hx) hret
      · cases hsx : searchParamDesc x1 argLines with
        | error e => rw [hsx] at hx; simp at hx
        | ok od =>
          cases od with
          | none => rw [hsx] at hx; simp at hx
          | some d =>
            rw [hsx] at hx
            cases hgx : get_json_type xann with
            | error e => rw [hgx] at hx; simp at hx
            | ok jt =>
              rw [hgx] at hx
              have hd : ¬ d = [] := by simpa using hx
              simp only [buildParams, if_neg hret, hsx, hgx, if_neg hd]
              exact ih p ann post _ _ htail hp hs

/-- C2.  `convert_function_to_tool` fails with the missing-docstring
`ValueError` when the documentation text is absent or empty, with the
missing-Args-section `ValueError` when documentation is present without
the `'Args:'` marker, and with the `ValueError` naming the parameter for
the first annotated non-return parameter whose description search finds
no matching line — every earlier parameter having passed — with no
partial result in any case. -/
theorem C2_error_taxonomy :
    (∀ (T : Type) (validate : ToolDict → Except PyErr T) (f : PyFunc),
        doc_of f = [] →
        convert_function_to_tool validate f = .error (.missingDoc f.name))
    ∧ (∀ (T : Type) (validate : ToolDict → Except PyErr T) (f : PyFunc),
        doc_of f ≠ [] →
        (pySplit (pystr "Args:") (doc_of f)).length < 2 →
        convert_function_to_tool validate f = .error (.missingSection f.name))
    ∧ (∀ (T : Type) (validate : ToolDict → Except PyErr T) (f : PyFunc)
        (pre : List ((List Char) × PyObj)) (p : List Char) (ann : PyObj)
        (post : List ((List Char) × PyObj)),
        doc_of f ≠ [] →
        2 ≤ (pySplit (pystr "Args:") (doc_of f)).length →
        f.anns = pre ++ (p, ann) :: post →
        (∀ x ∈ pre, paramPasses (arg_lines_of (doc_of f)) x = true) →
        p ≠ pystr "return" →
        searchParamDesc p (arg_lines_of (doc_of f)) = .ok none →
        convert_function_to_tool validate f = .error (.missingParamDesc p)) := by
  refine ⟨?_, ?_, ?_⟩
  · intro T validate f h
    simp [convert_function_to_tool, assemble_tool, h]
  · intro T validate f h1 h2
    simp [convert_function_to_tool, assemble_tool, h1, h2]
  · intro T validate f pre p ann post h1 h2 hanns hpre hp hs
    have h2' : ¬ (pySplit (pystr "Args:") (doc_of f)).length < 2 := by omega
    have hb := buildParams_first_missing (arg_lines_of (doc_of f)) pre p ann post [] []
      hpre hp hs
    simp [convert_function_to_tool, assemble_tool, h1, h2', hanns, hb]

/-- C2 witness: the three failures at concrete callables. -/
theorem C2_error_taxonomy_witness :
    convert_function_to_tool (Except.ok : ToolDict → Except PyErr ToolDict) funcNoDoc
        = .error (.missingDoc (pystr "f1"))
    ∧ convert_function_to_tool (Except.ok : ToolDict → Except PyErr ToolDict) funcNoArgsSection
        = .error (.missingSection (pystr "f2"))
    ∧ convert_function_to_tool (Except.ok : ToolDict → Except PyErr ToolDict) funcParamUndescribed
        = .error (.missingParamDesc (pystr "b")) :=
  ⟨C2_error_taxonomy.1 ToolDict Except.ok funcNoDoc rfl,
   C2_error_taxonomy.2.1 ToolDict Except.ok funcNoArgsSection (by decide) (by decide),
   C2_error_taxonomy.2.2 ToolDict Except.ok funcParamUndescribed
     [(pystr "a", .base (.typeO .int))] (pystr "b") (.base (.typeO .str)) []
     (by decide) (by decide) rfl (by decide) (by decide) (by decide)⟩

/-- Assigning a fresh key to a Python dictionary appends it. -/
theorem dictInsert_fresh (d : List ((List Char) × PropEntry)) (k : List Char) (v : PropEntry)
    (h : ∀ q ∈ d, q.1 ≠ k) : dictInsert d k v = d ++ [(k, v)] := by
  have hc : d.any (fun p => decide (p.1 = k)) = false := by
    rw [List.any_eq_false]
    intro q hq
    simp [h q hq]
  unfold dictInsert
  rw [hc]
  simp

/-- What a successful parameter loop builds, relative to the accumulators
it starts from: the property keys extend the accumulator with the
non-return annotation names in order, the required list extends it with
the non-return non-optional names in order, and every new property has a
non-empty description. -/
theorem buildParams_ok_spec (argLines : List (List Char)) :
    ∀ (anns : List ((List Char) × PyObj)) (props : List ((List Char) × PropEntry))
      (req : List (List Char)) (P : List ((List Char) × PropEntry)) (R : List (List Char)),
      (anns.map Prod.fst).Nodup →
      (∀ n ∈ anns.map Prod.fst, ∀ q ∈ props, q.1 ≠ n) →
      buildParams argLines props req anns = .ok (P, R) →
      P.map Prod.fst = props.map Prod.fst
          ++ (anns.filter (fun pa => !(pa.1 == pystr "return"))).map Prod.fst
      ∧ R = req ++ (anns.filter
          (fun pa => !(pa.1 == pystr "return") && !(is_optional_type pa.2))).map Prod.fst
      ∧ (∀ q ∈ P, q ∈ props ∨ q.2.description ≠ []) := by
  intro anns
  induction anns with
  | nil =>
    intro props req P R _ _ h
    simp only [buildParams] at h
    injection h with h2
    injection h2 with h3 h4
    subst h3; subst h4
    exact ⟨by simp, by simp, fun q hq => Or.inl hq⟩
  | cons pa rest ih =>
    intro props req P R hnd hfresh h
    obtain ⟨p, ann⟩ := pa
    simp only [List.map_cons, List.nodup_cons] at hnd
    obtain ⟨hpnotin, hndrest⟩ := hnd
    by_cases hret : p = pystr "return"
    · simp only [buildParams, if_pos hret] at h
      obtain ⟨e1, e2, e3⟩ := ih props req P R hndrest
        (fun n hn q hq => hfresh n (by simp [hn]) q hq) h
      subst hret
      refine ⟨?_, ?_, e3⟩
      · rw [e1]
        simp [List.filter_cons]
      · rw [e2]
        simp [List.filter_cons]
    · simp only [buildParams, if_neg hret] at h
      split at h
      · cases h
      · cases h
      · rename_i d hsx
        by_cases hd : d = []
        · rw [if_pos hd] at h; cases h
        · rw [if_neg hd] at h
          split at h
          · cases h
          · rename_i jt hgx
            have hpmem : p ∈ List.map Prod.fst ((p, ann) :: rest) :=
              List.mem_map.mpr ⟨(p, ann), List.mem_cons_self _ _, rfl⟩
            have hfreshp : ∀ q ∈ props, q.1 ≠ p := fun q hq => hfresh p hpmem q hq
            rw [dictInsert_fresh props p ⟨jt, d⟩ hfreshp] at h
            have hfresh' : ∀ n ∈ rest.map Prod.fst,
                ∀ q ∈ props ++ [(p, (⟨jt, d⟩ : PropEntry))], q.1 ≠ n := by
              intro n hn q hq
              rcases List.mem_append.mp hq with hq' | hq'
              · exact hfresh n (by simp [hn]) q hq'
              · have : q = (p, (⟨jt, d⟩ : PropEntry)) := by simpa using hq'
                rw [this]
                intro hc
                have hpn : p = n := hc
                exact hpnotin (hpn ▸ hn)
            obtain ⟨e1, e2, e3⟩ := ih _ _ P R hndrest hfresh' h
            refine ⟨?_, ?_, ?_⟩
            · rw [e1]
              simp [List.filter_cons, hret]
            · rw [e2]
              by_cases hopt : is_optional_type ann = true
              · simp [List.filter_cons, hret, hopt]
              · rw [Bool.not_eq_true] at hopt
                simp [List.filter_cons, hret, hopt]
            · intro q hq
              rcases e3 q hq with hq' | hq'
              · rcases List.mem_append.mp hq' with h1 | h1
                · exact Or.inl h1
                · right
                  have : q = (p, (⟨jt, d⟩ : PropEntry)) := by simpa using h1
                  rw [this]
                  exact hd
              · exact Or.inr hq'

/-- C7.  The dictionary `convert_function_to_tool` hands to the external
validator lists the non-return annotated parameter names as property
keys in declaration order, its required list is exactly the non-optional
subset of those keys in the same order, and every property carries a
non-empty description. -/
theorem C7_descriptor_invariants (f : PyFunc) (td : ToolDict)
    (hnd : (f.anns.map Prod.fst).Nodup)
    (h : assemble_tool f = .ok td) :
    td.properties.map Prod.fst
        = (f.anns.filter (fun pa => !(pa.1 == pystr "return"))).map Prod.fst
    ∧ td.required = (f.anns.filter
        (fun pa => !(pa.1 == pystr "return") && !(is_optional_type pa.2))).map Prod.fst
    ∧ ∀ q ∈ td.properties, q.2.description ≠ [] := by
  rw [assemble_tool] at h
  by_cases h1 : doc_of f = []
  · rw [if_pos h1] at h; cases h
  rw [if_neg h1] at h
  by_cases h2 : (pySplit (pystr "Args:") (doc_of f)).length < 2
  · rw [if_pos h2] at h; cases h
  rw [if_neg h2] at h
  cases hb : buildParams (arg_lines_of (doc_of f)) [] [] f.anns with
  | error e => rw [hb] at h; cases h
  | ok pr =>
    rw [hb] at h
    obtain ⟨props, req⟩ := pr
    cases hr : return_type_of f.anns with
    | error e => rw [hr] at h; cases h
    | ok rt =>
      rw [hr] at h
      injection h with h'
      subst h'
      obtain ⟨e1, e2, e3⟩ := buildParams_ok_spec (arg_lines_of (doc_of f)) f.anns [] []
        props req hnd (fun n _ q hq => absurd hq (List.not_mem_nil q)) hb
      exact ⟨by simpa using e1, by simpa using e2,
        fun q hq => (e3 q hq).resolve_left (fun hc => absurd hc (List.not_mem_nil q))⟩

/-- C7 witness: the round-trip callable's dictionary satisfies both
ordered-keys equalities. -/
theorem C7_descriptor_invariants_witness :
    toolRoundTrip.properties.map Prod.fst
        = (funcRoundTrip.anns.filter (fun pa => !(pa.1 == pystr "return"))).map Prod.fst
    ∧ toolRoundTrip.required = (funcRoundTrip.anns.filter
        (fun pa => !(pa.1 == pystr "return") && !(is_optional_type pa.2))).map Prod.fst :=
  ⟨(C7_descriptor_invariants funcRoundTrip toolRoundTrip (by decide) (by decide)).1,
   (C7_descriptor_invariants funcRoundTrip toolRoundTrip (by decide) (by decide)).2.1⟩

/-- Element-wise reading of a successful `process_list` run: one output
per item, in order, each produced by the item's own route. -/
theorem process_list_ok_spec {T R : Type} (validate : ToolDict → Except PyErr T)
    (vraw : R → Except PyErr T) :
    ∀ (items : List (PyFunc ⊕ R)) (outs : List T),
      process_list validate vraw items = .ok outs →
      outs.length = items.length
      ∧ ∀ i (hi : i < items.length) (ho : i < outs.length),
          route validate vraw (items.get ⟨i, hi⟩) = .ok (outs.get ⟨i, ho⟩) := by
  intro items
  induction items with
  | nil =>
    intro outs h
    simp only [process_list] at h
    injection h with h'
    subst h'
    exact ⟨rfl, fun i hi _ => absurd hi (by simp)⟩
  | cons t rest ih =>
    intro outs h
    simp only [process_list] at h
    split at h
    · cases h
    · rename_i x hr
      split at h
      · cases h
      · rename_i xs hrest
        injection h with h'
        subst h'
        obtain ⟨hlen, helt⟩ := ih xs hrest
        refine ⟨by simp [hlen], ?_⟩
        intro i hi ho
        match i with
        | 0 => exact hr
        | Nat.succ j =>
          have hj : j < rest.length := by
            have h'' := hi; simp only [List.length_cons] at h''; omega
          have hjo : j < xs.length := by
            have h'' := ho; simp only [List.length_cons] at h''; omega
          exact helt j hj hjo

/-- A failing item aborts `process_list` with that item's own error when
everything before it succeeds. -/
theorem process_list_first_error {T R : Type} (validate : ToolDict → Except PyErr T)
    (vraw : R → Except PyErr T) :
    ∀ (pre : List (PyFunc ⊕ R)) (item : PyFunc ⊕ R) (post : List (PyFunc ⊕ R)) (e : PyErr),
      (∀ x ∈ pre, ∃ t, route validate vraw x = .ok t) →
      route validate vraw item = .error e →
      process_list validate vraw (pre ++ item :: post) = .error e := by
  intro pre
  induction pre with
  | nil =>
    intro item post e _ hi
    simp only [List.nil_append, process_list, hi]
  | cons x xs ih =>
    intro item post e hpre hi
    obtain ⟨t, ht⟩ := hpre x (List.mem_cons_self x xs)
    have htail : ∀ y ∈ xs, ∃ u, route validate vraw y = .ok u :=
      fun y hy => hpre y (List.mem_cons_of_mem x hy)
    simp only [List.cons_append, process_list, ht, List.append_eq]
    rw [ih item post e htail hi]

/-- C8.  `process_tools` returns the empty sequence on an absent or empty
input; on anything else it processes items in input order — invocable
items through `convert_function_to_tool`, the rest straight to the
external validator — returns one output per item in the same order, and
the first failing item aborts the whole batch with its own error. -/
theorem C8_process_tools (T R : Type) (validate : ToolDict → Except PyErr T)
    (vraw : R → Except PyErr T) :
    process_tools validate vraw none = .ok []
    ∧ process_tools validate vraw (some []) = .ok []
    ∧ (∀ (items : List (PyFunc ⊕ R)) (outs : List T),
        process_tools validate vraw (some items) = .ok outs →
        outs.length = items.length
        ∧ ∀ i (hi : i < items.length) (ho : i < outs.length),
            route validate vraw (items.get ⟨i, hi⟩) = .ok (outs.get ⟨i, ho⟩))
    ∧ (∀ (pre : List (PyFunc ⊕ R)) (item : PyFunc ⊕ R) (post : List (PyFunc ⊕ R))
          (e : PyErr),
        (∀ x ∈ pre, ∃ t, route validate vraw x = .ok t) →
        route validate vraw item = .error e →
        process_tools validate vraw (some (pre ++ item :: post)) = .error e) := by
  refine ⟨rfl, rfl, ?_, ?_⟩
  · intro items outs h
    cases items with
    | nil =>
      simp only [process_tools, List.isEmpty_nil, if_pos] at h
      injection h with h'
      subst h'
      exact ⟨rfl, fun i hi _ => absurd hi (by simp)⟩
    | cons a as =>
      simp only [process_tools, List.isEmpty_cons] at h
      exact process_list_ok_spec validate vraw (a :: as) outs h
  · intro pre item post e hpre hi
    have hne : (pre ++ item :: post).isEmpty = false := by
      cases pre <;> simp
    simp only [process_tools, hne]
    exact process_list_first_error validate vraw pre item post e hpre hi

/-- C8 witness: the empty cases, and a batch whose first item is a
callable without documentation aborting with that error. -/
theorem C8_process_tools_witness :
    process_tools (Except.ok : ToolDict → Except PyErr ToolDict)
        (Except.ok : ToolDict → Except PyErr ToolDict) none = .ok []
    ∧ process_tools (Except.ok : ToolDict → Except PyErr ToolDict)
        (Except.ok : ToolDict → Except PyErr ToolDict) (some []) = .ok []
    ∧ process_tools (Except.ok : ToolDict → Except PyErr ToolDict)
        (Except.ok : ToolDict → Except PyErr ToolDict)
        (some [Sum.inl funcNoDoc, Sum.inr toolRoundTrip])
        = .error (.missingDoc (pystr "f1")) :=
  ⟨(C8_process_tools ToolDict ToolDict Except.ok Except.ok).1,
   (C8_process_tools ToolDict ToolDict Except.ok Except.ok).2.1,
   (C8_process_tools ToolDict ToolDict Except.ok Except.ok).2.2.2
     [] (Sum.inl funcNoDoc) [Sum.inr toolRoundTrip] (.missingDoc (pystr "f1"))
     (fun x hx => absurd hx (List.not_mem_nil x)) (by decide)⟩

/-- C9 counterexample: by the module's own absence test (used when
stripping unions) the class `NoneType` denotes absence, yet as a return
annotation it passes the `is not None` check at source line 160 and is
resolved, so the compiled `return_type` is the string `'null'`, not the
null the claim requires. -/
theorem C9_counterexample :
    isAbsenceB (.typeO .noneType) = true
    ∧ assemble_tool funcNoneTypeReturn
        = .ok ⟨pystr "g", pystr "Does.", [], [], some (.s (pystr "null"))⟩ :=
  ⟨rfl, by decide⟩

/-- C9 as amended: the compiled `return_type` is null exactly when the
annotation mapping has no `'return'` entry or that entry is the value
`None` itself; any other entry — the class `NoneType` included — is
resolved by `_get_json_type`. -/
theorem C9_return_type_amended (f : PyFunc) (td : ToolDict)
    (h : assemble_tool f = .ok td) :
    td.return_type
      = match f.anns.lookup (pystr "return") with
        | none => none
        | some ann => if isNoneValue ann then none else (get_json_type ann).toOption := by
  rw [assemble_tool] at h
  by_cases h1 : doc_of f = []
  · rw [if_pos h1] at h; cases h
  rw [if_neg h1] at h
  by_cases h2 : (pySplit (pystr "Args:") (doc_of f)).length < 2
  · rw [if_pos h2] at h; cases h
  rw [if_neg h2] at h
  split at h
  · cases h
  · rename_i props req hb
    split at h
    · cases h
    · rename_i rt hr
      injection h with h'
      subst h'
      rw [return_type_of] at hr
      split at hr
      · injection hr with hr'
        subst hr'
        rfl
      · rename_i ann hl
        by_cases hn : isNoneValue ann = true
        · rw [if_pos hn] at hr
          injection hr with hr'
          subst hr'
          simp [hn]
        · rw [if_neg hn] at hr
          split at hr
          · cases hr
          · rename_i jt hg
            injection hr with hr'
            subst hr'
            simp [hn, hg, Except.toOption]

/-- C9 witness: the round-trip callable declares an integer-like return,
resolved into its dictionary. -/
theorem C9_return_type_amended_witness :
    toolRoundTrip.return_type
      = match funcRoundTrip.anns.lookup (pystr "return") with
        | none => none
        | some ann => if isNoneValue ann then none else (get_json_type ann).toOption :=
  C9_return_type_amended funcRoundTrip toolRoundTrip (by decide)

/-- The keys of a Python dictionary assignment: the old keys, plus the
assigned one. -/
theorem dictInsert_keys (d : List ((List Char) × PropEntry)) (k : List Char) (v : PropEntry)
    (n : List Char) (h : n ∈ (dictInsert d k v).map Prod.fst) :
    n ∈ d.map Prod.fst ∨ n = k := by
  unfold dictInsert at h
  by_cases hc : (d.any fun p => decide (p.1 = k)) = true
  · rw [if_pos hc, List.map_map] at h
    obtain ⟨q, hq, hqn⟩ := List.mem_map.mp h
    by_cases hqk : q.1 = k
    · right
      simp only [Function.comp_apply, if_pos hqk] at hqn
      exact hqn.symm
    · left
      simp only [Function.comp_apply, if_neg hqk] at hqn
      exact List.mem_map.mpr ⟨q, hq, hqn⟩
  · rw [if_neg hc, List.map_append] at h
    rcases List.mem_append.mp h with h' | h'
    · exact Or.inl h'
    · right
      simpa using h'

/-- Every key the parameter loop can put into `properties` or `required`
comes from an accumulator or from a name in the annotation mapping. -/
theorem buildParams_names_sub (argLines : List (List Char)) :
    ∀ (anns : List ((List Char) × PyObj)) (props : List ((List Char) × PropEntry))
      (req : List (List Char)) (P : List ((List Char) × PropEntry)) (R : List (List Char)),
      buildParams argLines props req anns = .ok (P, R) →
      (∀ n, n ∈ P.map Prod.fst → n ∈ props.map Prod.fst ∨ n ∈ anns.map Prod.fst)
      ∧ (∀ n, n ∈ R → n ∈ req ∨ n ∈ anns.map Prod.fst) := by
  intro anns
  induction anns with
  | nil =>
    intro props req P R h
    simp only [buildParams] at h
    injection h with h2
    injection h2 with h3 h4
    subst h3; subst h4
    exact ⟨fun n hn => Or.inl hn, fun n hn => Or.inl hn⟩
  | cons pa rest ih =>
    intro props req P R h
    obtain ⟨p, ann⟩ := pa
    by_cases hret : p = pystr "return"
    · simp only [buildParams, if_pos hret] at h
      obtain ⟨e1, e2⟩ := ih props req P R h
      refine ⟨fun n hn => ?_, fun n hn => ?_⟩
      · rcases e1 n hn with h' | h'
        · exact Or.inl h'
        · exact Or.inr (List.mem_cons_of_mem p h')
      · rcases e2 n hn with h' | h'
        · exact Or.inl h'
        · exact Or.inr (List.mem_cons_of_mem p h')
    · simp only [buildParams, if_neg hret] at h
      split at h
      · cases h
      · cases h
      · rename_i d hsx
        by_cases hd : d = []
        · rw [if_pos hd] at h; cases h
        · rw [if_neg hd] at h
          split at h
          · cases h
          · rename_i jt hgx
            obtain ⟨e1, e2⟩ := ih _ _ P R h
            refine ⟨fun n hn => ?_, fun n hn => ?_⟩
            · rcases e1 n hn with h' | h'
              · rcases dictInsert_keys props p ⟨jt, d⟩ n h' with h'' | h''
                · exact Or.inl h''
                · refine Or.inr ?_
                  rw [h'']
                  exact List.mem_cons_self p (List.map Prod.fst rest)
              · exact Or.inr (List.mem_cons_of_mem p h')
            · rcases e2 n hn with h' | h'
              · by_cases hopt : is_optional_type ann = true
                · rw [if_pos hopt] at h'
                  exact Or.inl h'
                · rw [if_neg hopt] at h'
                  rcases List.mem_append.mp h' with h'' | h''
                  · exact Or.inl h''
                  · have hnp : n = p := by simpa using h''
                    refine Or.inr ?_
                    rw [hnp]
                    exact List.mem_cons_self p (List.map Prod.fst rest)
              · exact Or.inr (List.mem_cons_of_mem p h')

/-- C10.  A declared parameter with no entry in the annotation mapping is
silently omitted: it can appear neither among the compiled property keys
nor in the required list, whatever the documentation says about it. -/
theorem C10_unannotated_param_omitted (f : PyFunc) (td : ToolDict) (p : List Char)
    (h : assemble_tool f = .ok td) (hp : p ∉ f.anns.map Prod.fst) :
    p ∉ td.properties.map Prod.fst ∧ p ∉ td.required := by
  rw [assemble_tool] at h
  by_cases h1 : doc_of f = []
  · rw [if_pos h1] at h; cases h
  rw [if_neg h1] at h
  by_cases h2 : (pySplit (pystr "Args:") (doc_of f)).length < 2
  · rw [if_pos h2] at h; cases h
  rw [if_neg h2] at h
  split at h
  · cases h
  · rename_i props req hb
    split at h
    · cases h
    · rename_i rt hr
      injection h with h'
      subst h'
      obtain ⟨e1, e2⟩ := buildParams_names_sub (arg_lines_of (doc_of f)) f.anns [] []
        props req hb
      constructor
      · intro hc
        rcases e1 p hc with h' | h'
        · exact absurd h' (by simp)
        · exact hp h'
      · intro hc
        rcases e2 p hc with h' | h'
        · exact absurd h' (List.not_mem_nil p)
        · exact hp h'

/-- The dictionary built for `funcUnannotated`: the described but
unannotated parameter `c` leaves no trace. -/
def toolUnannotated : ToolDict :=
  ⟨pystr "h", pystr "Mix.",
   [(pystr "a", ⟨.s (pystr "integer"), pystr "first"⟩)], [pystr "a"], none⟩

/-- C10 witness: compiling `funcUnannotated` succeeds and omits `c`. -/
theorem C10_unannotated_param_omitted_witness :
    pystr "c" ∉ toolUnannotated.properties.map Prod.fst
    ∧ pystr "c" ∉ toolUnannotated.required :=
  C10_unannotated_param_omitted funcUnannotated toolUnannotated (pystr "c")
    (by decide) (by decide)

end OllamaUtils
